import Mathlib

/-!
Verification development for the murajaah spaced-repetition scheduler.
The definitions below are shallow embeddings of the TypeScript source:
the FSRS engine (`src/services/fsrs`), the ayah-progress store
(`src/services/database/ayahProgress`), the grouping engine
(`src/utils/storage.ts`), the due-set scheduler (`src/services/scheduler`)
and the session context (`SessionContext`).  Timestamps are modelled as
real-valued milliseconds, JS numbers as real numbers, SQL tables as lists
of rows, and each `new Date()` call as one sample of an explicit clock.
-/

namespace Murajaah

/-- Card states, `'new' | 'learning' | 'review' | 'relearning'` in the source. -/
inductive CardState where
  | new
  | learning
  | review
  | relearning
deriving DecidableEq

/-- Ratings `1 | 2 | 3 | 4` in the source: Again(1), Hard(2), Good(3), Easy(4). -/
inductive Rating where
  | again
  | hard
  | good
  | easy
deriving DecidableEq

/-- FSRSParameters: weight vector `w[0..11]` plus `requestRetention`.
The source stores `w` as a 12-element array; indices ≥ 12 are never read. -/
structure FSRSParameters where
  w : ℕ → ℝ
  requestRetention : ℝ

/-- The default weight vector of `DEFAULT_PARAMETERS` in the FSRS module. -/
noncomputable def defaultW : ℕ → ℝ
  | 0 => 0.4
  | 1 => 0.6
  | 2 => 2.4
  | 3 => 0.94
  | 4 => 0.86
  | 5 => 1.01
  | 6 => 1.3
  | 7 => 0.7
  | 8 => 1.0
  | 9 => 1.0
  | 10 => 0.9
  | 11 => 0.2
  | _ => 0

/-- Default FSRS parameters (`DEFAULT_PARAMETERS` in the source). -/
noncomputable def DEFAULT_PARAMETERS : FSRSParameters :=
  { w := defaultW, requestRetention := 0.9 }

/-- FSRSCard/SchedulingInfo.  `lastReview`, `dueDate` hold millisecond
timestamps (the runtime object returned by `scheduleReview` carries
`lastReview` even though the `SchedulingInfo` interface omits it). -/
structure FSRSCard where
  state : CardState
  easeFactor : ℝ
  stability : ℝ
  difficulty : ℝ
  lapses : ℤ
  lastReview : Option ℝ
  dueDate : Option ℝ
  interval : ℤ

/-- Embeds `initializeCard` from the FSRS module. -/
noncomputable def initializeCard : FSRSCard :=
  { state := .new
    easeFactor := 2.5
    stability := 0
    difficulty := 0
    lapses := 0
    lastReview := none
    dueDate := none
    interval := 0 }

/-- Milliseconds per day, `24 * 60 * 60 * 1000`. -/
def msPerDay : ℝ := 24 * 60 * 60 * 1000

/-- Embeds `memoryRetention(stability, elapsedDays, w)`.  The source guards only
`elapsedDays <= 0`; there is no guard on `stability`.  The middle branch
records the IEEE-754 behaviour of the unguarded formula at `stability = 0`:
with `elapsedDays > 0` the numerator `Math.log(0.9) * elapsedDays` is
negative, dividing it by `+0` gives `-Infinity`, and `Math.exp(-Infinity)`
is `0` (Lean's convention `x / 0 = 0` would silently give `exp 0 = 1`
instead, so the branch is made explicit).  The `w` argument is accepted
and ignored, exactly as in the source. -/
noncomputable def memoryRetention (stability elapsedDays : ℝ) (_w : ℕ → ℝ) : ℝ :=
  if elapsedDays ≤ 0 then 1
  else if stability = 0 then 0
  else Real.exp (Real.log 0.9 * elapsedDays / stability)

/-- Embeds `Math.round`: round half towards positive infinity. -/
noncomputable def jsRound (x : ℝ) : ℤ := ⌊x + 1 / 2⌋

/-- Embeds `nextInterval(stability, requestRetention)` from the FSRS module. -/
noncomputable def nextInterval (stability requestRetention : ℝ) : ℤ :=
  if stability ≤ 0 then 0
  else max 1 (jsRound (stability * Real.log requestRetention / Real.log 0.9))

/-- Embeds `scheduleReview(card, rating, now, params)`: the FSRS state machine,
translated branch for branch from the source `switch`.  Note that in the
Hard case the trailing assignment
`result.state = card.state === 'relearning' ? 'review' : card.state`
overwrites the `result.state = 'learning'` set in the `new` branch. -/
noncomputable def scheduleReview (card : FSRSCard) (rating : Rating) (now : ℝ)
    (params : FSRSParameters) : FSRSCard :=
  let w := params.w
  let requestRetention := params.requestRetention
  let elapsedDays : ℝ :=
    match card.lastReview with
    | some lr => (now - lr) / msPerDay
    | none => 0
  let result := card
  let result :=
    if card.state = .new then
      { result with difficulty := w 1, stability := w 0 }
    else result
  match rating with
  | .again =>
    let result :=
      if card.state = .new ∨ card.state = .learning then
        { result with state := .learning }
      else
        { result with state := .relearning, lapses := result.lapses + 1 }
    let result :=
      if result.stability > (0 : ℝ) then
        { result with stability := result.stability * w 3 }
      else result
    let result := { result with difficulty := min (max 0 (result.difficulty + w 7)) 1 }
    { result with interval := 0, dueDate := some now, lastReview := some now }
  | .hard =>
    let result :=
      if card.state = .new then
        { result with state := .learning, interval := 1, dueDate := some (now + msPerDay) }
      else if card.state = .learning ∨ card.state = .relearning then
        { result with interval := 1, dueDate := some (now + msPerDay) }
      else
        let retrievability := memoryRetention card.stability elapsedDays w
        let hardStability := card.stability * w 4 * retrievability ^ (-(w 2))
        let iv := nextInterval hardStability requestRetention
        { result with
            stability := hardStability
            difficulty := min (max 0 (result.difficulty + w 8)) 1
            interval := iv
            dueDate := some (now + (iv : ℝ) * msPerDay) }
    let result :=
      { result with
          state := if card.state = CardState.relearning then CardState.review else card.state }
    { result with lastReview := some now }
  | .good =>
    let result :=
      if card.state = .new ∨ card.state = .learning then
        { result with state := .review, interval := 1, dueDate := some (now + msPerDay) }
      else if card.state = .relearning then
        let retrievability := memoryRetention card.stability elapsedDays w
        let goodStability := card.stability * w 5 * retrievability ^ (-(w 2))
        let iv := nextInterval goodStability requestRetention
        { result with
            state := .review
            stability := goodStability
            interval := iv
            dueDate := some (now + (iv : ℝ) * msPerDay) }
      else
        let retrievability := memoryRetention card.stability elapsedDays w
        let goodStability := card.stability * w 5 * retrievability ^ (-(w 2))
        let iv := nextInterval goodStability requestRetention
        { result with
            stability := goodStability
            interval := iv
            dueDate := some (now + (iv : ℝ) * msPerDay) }
    let result := { result with difficulty := min (max 0 (result.difficulty + w 9)) 1 }
    { result with lastReview := some now }
  | .easy =>
    let result :=
      if card.state = .new ∨ card.state = .learning ∨ card.state = .relearning then
        { result with state := .review, interval := 4, dueDate := some (now + 4 * msPerDay) }
      else
        let retrievability := memoryRetention card.stability elapsedDays w
        let easyStability := card.stability * w 6 * retrievability ^ (-(w 2))
        let iv := nextInterval easyStability requestRetention
        { result with
            stability := easyStability
            interval := iv
            dueDate := some (now + (iv : ℝ) * msPerDay) }
    let result := { result with difficulty := min (max 0 (result.difficulty + w 10)) 1 }
    { result with lastReview := some now }

/-- Embeds `isDue(card, now)` from the FSRS module. -/
def isDue (card : FSRSCard) (now : ℝ) : Prop :=
  if card.state = .new then True
  else
    match card.dueDate with
    | none => False
    | some d => d ≤ now

/-- Numeric value of a rating (`Rating = 1 | 2 | 3 | 4` in the source). -/
def Rating.toNat : Rating → ℕ
  | .again => 1
  | .hard => 2
  | .good => 3
  | .easy => 4

/-- ReviewEntry: one element of an `AyahProgress.history` log.
`updateAyahProgress` always supplies the optional interval fields. -/
structure ReviewEntry where
  date : ℝ
  rating : Rating
  elapsedTime : Option ℝ
  previousInterval : ℤ
  scheduledInterval : ℤ

/-- AyahProgress: one scheduling record per (surah, ayah).  Ids and group
ids (uuid strings in the source) are modelled as naturals. -/
structure AyahProgress where
  id : ℕ
  surahNumber : ℕ
  ayahNumber : ℕ
  groupId : ℕ
  recallScore : ℝ
  lastReviewed : Option ℝ
  nextReview : Option ℝ
  easeFactor : ℝ
  stability : ℝ
  difficulty : ℝ
  lapses : ℤ
  state : CardState
  interval : ℤ
  createdAt : ℝ
  history : List ReviewEntry
  testWithGroup : Bool
  groupPosition : ℕ

/-- The card object built from a progress row inside `updateAyahProgress`. -/
def progressToCard (p : AyahProgress) : FSRSCard :=
  { state := p.state
    easeFactor := p.easeFactor
    stability := p.stability
    difficulty := p.difficulty
    lapses := p.lapses
    lastReview := p.lastReviewed
    dueDate := p.nextReview
    interval := p.interval }

/-- Embeds `createAyahProgress`: the fresh record inserted when an ayah starts
being learned (uuid and FSRS fields from `initializeCard`). -/
noncomputable def createAyahProgress (id surahNumber ayahNumber groupId : ℕ)
    (testWithGroup : Bool) (groupPosition : ℕ) (now : ℝ) : AyahProgress :=
  let card := initializeCard
  { id := id
    surahNumber := surahNumber
    ayahNumber := ayahNumber
    groupId := groupId
    recallScore := 0
    lastReviewed := none
    nextReview := none
    easeFactor := card.easeFactor
    stability := card.stability
    difficulty := card.difficulty
    lapses := card.lapses
    state := card.state
    interval := card.interval
    createdAt := now
    history := []
    testWithGroup := testWithGroup
    groupPosition := groupPosition }

/-- The updated record computed by `updateAyahProgress` from the current
record, the rating and the timestamp `now` it sampled with `new Date()`. -/
noncomputable def reviewedProgress (currentProgress : AyahProgress) (rating : Rating)
    (elapsedTime : Option ℝ) (now : ℝ) (params : FSRSParameters) : AyahProgress :=
  let card := progressToCard currentProgress
  let scheduled := scheduleReview card rating now params
  let reviewEntry : ReviewEntry :=
    { date := now
      rating := rating
      elapsedTime := elapsedTime
      previousInterval := currentProgress.interval
      scheduledInterval := scheduled.interval }
  let history := currentProgress.history ++ [reviewEntry]
  let goodRatings := (history.filter (fun e => 3 ≤ e.rating.toNat)).length
  let recallScore : ℝ :=
    if 0 < history.length then ((goodRatings : ℝ) / (history.length : ℝ)) * 100 else 0
  { currentProgress with
      recallScore := recallScore
      lastReviewed := some now
      nextReview := scheduled.dueDate
      easeFactor := scheduled.easeFactor
      stability := scheduled.stability
      difficulty := scheduled.difficulty
      lapses := scheduled.lapses
      state := scheduled.state
      interval := scheduled.interval
      history := history }

/-- Embeds `updateAyahProgress(id, rating, elapsedTime)`: looks the record up by
id (throwing, i.e. `none`, when absent), reschedules it with FSRS and
writes it back (`UPDATE ... WHERE id = ?`).  The store is the
`ayah_progress` table; `now` is this call's own `new Date()` sample. -/
noncomputable def updateAyahProgress (store : List AyahProgress) (id : ℕ)
    (rating : Rating) (elapsedTime : Option ℝ) (now : ℝ) (params : FSRSParameters) :
    Option (AyahProgress × List AyahProgress) :=
  match store.find? (fun p => p.id == id) with
  | none => none
  | some currentProgress =>
    let updatedProgress := reviewedProgress currentProgress rating elapsedTime now params
    some (updatedProgress, store.map (fun p => if p.id = id then updatedProgress else p))

/-- The `WHERE nextReview IS NULL OR nextReview <= ?` selection predicate
of `getDueAyahs` (ISO-8601 string comparison modelled as numeric `≤`). -/
def dueQuerySelects (p : AyahProgress) (now : ℝ) : Prop :=
  p.nextReview = none ∨ ∃ t, p.nextReview = some t ∧ t ≤ now

/-- The per-session rating tally `{again, hard, good, easy}`. -/
structure RatingsTally where
  again : ℕ
  hard : ℕ
  good : ℕ
  easy : ℕ
deriving DecidableEq

/-- The `switch (rating)` block of `rateAyah` that increments the tally. -/
def bumpRating (r : RatingsTally) : Rating → RatingsTally
  | .again => { r with again := r.again + 1 }
  | .hard => { r with hard := r.hard + 1 }
  | .good => { r with good := r.good + 1 }
  | .easy => { r with easy := r.easy + 1 }

/-- The `for (const groupAyah of groupAyahs)` loop of `rateAyah`: each
iteration calls `updateAyahProgress`, whose own `new Date()` is modelled
as `clock k` for the k-th update call of the rating event. -/
noncomputable def updateGroupLoop (store : List AyahProgress) (group : List AyahProgress)
    (rating : Rating) (elapsed : ℝ) (clock : ℕ → ℝ) (k : ℕ) (params : FSRSParameters) :
    Option (List AyahProgress) :=
  match group with
  | [] => some store
  | a :: rest => do
    let r ← updateAyahProgress store a.id rating (some elapsed) (clock k) params
    updateGroupLoop r.2 rest rating elapsed clock (k + 1) params

/-- Embeds `rateAyah(rating)` from `SessionContext`, restricted to its data flow:
updates the current ayah, then every other session ayah of the same group
when `testWithGroup`, then bumps the rating tally and `totalReviewed` by
exactly one.  `ayahs` is the session list, `store` the `ayah_progress`
table, `elapsed` the per-ayah elapsed time passed to every update, and
`clock k` the timestamp sampled by the k-th `updateAyahProgress` call.
Failures inside the `try` are swallowed by the source's `catch`; the model
returns `none` for them (their partial database writes are not needed by
any claim). -/
noncomputable def rateAyah (store : List AyahProgress) (ayahs : List AyahProgress)
    (currentAyah : AyahProgress) (rating : Rating) (elapsed : ℝ) (clock : ℕ → ℝ)
    (ratings : RatingsTally) (totalReviewed : ℕ) (params : FSRSParameters) :
    Option (List AyahProgress × RatingsTally × ℕ) := do
  let r1 ← updateAyahProgress store currentAyah.id rating (some elapsed) (clock 0) params
  let store2 ←
    if currentAyah.testWithGroup then
      let groupAyahs := ayahs.filter (fun a =>
        a.groupId == currentAyah.groupId && a.testWithGroup && a.id != currentAyah.id)
      updateGroupLoop r1.2 groupAyahs rating elapsed clock 1 params
    else
      pure r1.2
  pure (store2, bumpRating ratings rating, totalReviewed + 1)

/-- Embeds `calculateRetention(ratings)` from `SessionContext`: `again` counts as
failed, everything else as passed. -/
def calculateRetention (ratings : RatingsTally) : ℚ :=
  let total := ratings.again + ratings.hard + ratings.good + ratings.easy
  if total = 0 then 0
  else
    let passed := ratings.hard + ratings.good + ratings.easy
    ((passed : ℚ) / (total : ℚ)) * 100

/-- The slice of `UserSettings` the scheduler reads. -/
structure Settings where
  reviewLimit : ℕ

/-- The `{due, new, learning, review}` summary of `getTodayDueReviews`. -/
structure Counts where
  due : ℕ
  new : ℕ
  learning : ℕ
  review : ℕ
deriving DecidableEq

/-- A thrown storage error. -/
abbrev Err := String

/-- The JS `Map` built by `getTodayDueReviews`: keyed by `groupId` for
`testWithGroup` rows and by `id` otherwise; `set` on an existing key
replaces the value in place, pushes keep insertion order. -/
def buildGroupMap (rows : List AyahProgress) : List (ℕ × List AyahProgress) :=
  rows.foldl
    (fun m p =>
      if p.testWithGroup then
        if (m.find? (fun kv => kv.1 == p.groupId)).isSome then
          m.map (fun kv => if kv.1 = p.groupId then (kv.1, kv.2 ++ [p]) else kv)
        else m ++ [(p.groupId, [p])]
      else
        if (m.find? (fun kv => kv.1 == p.id)).isSome then
          m.map (fun kv => if kv.1 = p.id then (kv.1, [p]) else kv)
        else m ++ [(p.id, [p])])
    []

/-- State of the first ayah of one map entry (entries are never empty; the
default mirrors the fact that a missing first element would fall into the
`else`/learning bucket). -/
def repState (l : List AyahProgress) : CardState :=
  match l.head? with
  | some p => p.state
  | none => CardState.learning

/-- The unique-group state counting of `getTodayDueReviews`. -/
def countDue (rows : List AyahProgress) : Counts :=
  let m := buildGroupMap rows
  { due := m.length
    new := (m.filter (fun kv => repState kv.2 == CardState.new)).length
    learning := (m.filter (fun kv =>
      repState kv.2 != CardState.new && repState kv.2 != CardState.review)).length
    review := (m.filter (fun kv => repState kv.2 == CardState.review)).length }

/-- The body of the `try` block of `getTodayDueReviews`: the settings
query, the due query, the early return for an empty due set and the group
counting.  An `.error` models a thrown storage query. -/
def getTodayDueReviewsE (settingsRes : Except Err Settings)
    (dueRes : Except Err (List AyahProgress)) : Except Err Counts := do
  let _ ← settingsRes
  let dueAyahs ← dueRes
  if dueAyahs.isEmpty then
    pure { due := 0, new := 0, learning := 0, review := 0 }
  else
    pure (countDue dueAyahs)

/-- Embeds `getTodayDueReviews`: the `catch` returns all-zero counts. -/
def getTodayDueReviews (settingsRes : Except Err Settings)
    (dueRes : Except Err (List AyahProgress)) : Counts :=
  match getTodayDueReviewsE settingsRes dueRes with
  | .ok c => c
  | .error _ => { due := 0, new := 0, learning := 0, review := 0 }

/-- The `for (const ayah of dueAyahs)` loop of `getSessionAyahs`:
`groupQuery g` is the `SELECT ... WHERE groupId = ?` result for group `g`
(ordered by `groupPosition`), `processed` the set of handled group ids. -/
def sessionLoop (groupQuery : ℕ → Except Err (List AyahProgress)) :
    List AyahProgress → List ℕ → Except Err (List AyahProgress)
  | [], _ => .ok []
  | a :: rest, processed =>
    if a.testWithGroup && !processed.contains a.groupId then do
      let groupAyahs ← groupQuery a.groupId
      let tail ← sessionLoop groupQuery rest (processed ++ [a.groupId])
      pure (groupAyahs ++ tail)
    else if !a.testWithGroup then do
      let tail ← sessionLoop groupQuery rest processed
      pure (a :: tail)
    else
      sessionLoop groupQuery rest processed

/-- The body of the `try` block of `getSessionAyahs`: reads the review
limit from settings, fetches `getDueAyahs(limit)` (`dueFetch limit`) and
materializes the group members. -/
def getSessionAyahsE (settingsRes : Except Err Settings)
    (dueFetch : ℕ → Except Err (List AyahProgress))
    (groupQuery : ℕ → Except Err (List AyahProgress)) : Except Err (List AyahProgress) := do
  let settings ← settingsRes
  let dueAyahs ← dueFetch settings.reviewLimit
  sessionLoop groupQuery dueAyahs []

/-- Embeds `getSessionAyahs`: the `catch` returns the empty list. -/
def getSessionAyahs (settingsRes : Except Err Settings)
    (dueFetch : ℕ → Except Err (List AyahProgress))
    (groupQuery : ℕ → Except Err (List AyahProgress)) : List AyahProgress :=
  match getSessionAyahsE settingsRes dueFetch groupQuery with
  | .ok l => l
  | .error _ => []

/-- The slice of a `Surah` the grouping engine reads. -/
structure Surah where
  number : ℕ
  ayahCount : ℕ
  rukus : List ℕ
  pages : List ℕ
deriving DecidableEq

/-- Values of `groupType`. -/
inductive GroupType where
  | fixed
  | ruku
  | page
  | custom
deriving DecidableEq

/-- Group `state` values. -/
inductive GroupState where
  | new
  | learning
  | review
  | complete
deriving DecidableEq

/-- One `ayah_groups` row (ids modelled as naturals). -/
structure GroupRow where
  id : ℕ
  surahNumber : ℕ
  startAyah : ℕ
  endAyah : ℕ
  groupType : GroupType
  progress : ℚ
  state : GroupState
  ayahIds : List ℕ
  testAsGroup : Bool
deriving DecidableEq

/-- A `quran_ayahs` row as read by the boundary grouping (ayah number plus
its ruku and page markers). -/
structure AyahRow where
  ayahNumber : ℕ
  ruku : ℕ
  page : ℕ
deriving DecidableEq

/-- Query `SELECT * FROM ayah_groups WHERE surahNumber = ? AND groupType = ?
ORDER BY startAyah` (a stable sort models the `ORDER BY`). -/
def queryGroups (surahNumber : ℕ) (t : GroupType) (store : List GroupRow) : List GroupRow :=
  List.insertionSort (fun a b => a.startAyah ≤ b.startAyah)
    (store.filter (fun r => r.surahNumber == surahNumber && r.groupType == t))

/-- Statement `DELETE FROM ayah_groups WHERE surahNumber = ? AND groupType = ?`. -/
def deleteGroups (surahNumber : ℕ) (t : GroupType) (store : List GroupRow) : List GroupRow :=
  store.filter (fun r => !(r.surahNumber == surahNumber && r.groupType == t))

/-- The `for (let start = 1; start <= surah.ayahCount; start += size)`
loop of `createFixedGroups`: the (startAyah, endAyah) pairs it visits.
The `0 < size` guard records that the source loop only terminates for
positive step sizes (guaranteed there by `Math.max(1, ...)`). -/
def fixedRanges (ayahCount size start : ℕ) : List (ℕ × ℕ) :=
  if _h : start ≤ ayahCount ∧ 0 < size then
    (start, min (start + size - 1) ayahCount) :: fixedRanges ayahCount size (start + size)
  else []
termination_by ayahCount + 1 - start
decreasing_by omega

/-- A row generated by `createFixedGroups` (uuid drawn from a counter). -/
def mkFixedRow (surah : Surah) (id : ℕ) (range : ℕ × ℕ) : GroupRow :=
  { id := id
    surahNumber := surah.number
    startAyah := range.1
    endAyah := range.2
    groupType := .fixed
    progress := 0
    state := .new
    ayahIds := []
    testAsGroup := true }

/-- The `groups.push` loop body of `createFixedGroups`: one uuid (drawn
from the counter) per created row, in loop order. -/
def buildFixedRows (surah : Surah) (idc : ℕ) : List (ℕ × ℕ) → List GroupRow
  | [] => []
  | range :: rest => mkFixedRow surah idc range :: buildFixedRows surah (idc + 1) rest

/-- Embeds `createFixedGroups(surah, groupSize)`: clamps the size
(`Math.max(1, groupSize || 5)`), deletes existing fixed rows for the
surah then builds the consecutive ranges.  Returns (generated groups,
table after the delete, next fresh id). -/
def createFixedGroups (surah : Surah) (groupSize : ℤ) (store : List GroupRow) (idc : ℕ) :
    List GroupRow × List GroupRow × ℕ :=
  let size : ℕ := (max 1 (if groupSize = 0 then 5 else groupSize)).toNat
  let store := deleteGroups surah.number .fixed store
  let ranges := fixedRanges surah.ayahCount size 1
  let groups := buildFixedRows surah idc ranges
  (groups, store, idc + ranges.length)

/-- One `set` on the boundary `Map`: entries are `(marker, start, end)`
in insertion order; an existing marker's span is widened by min/max. -/
def insertBoundary (m : List (ℕ × ℕ × ℕ)) (marker ayahNumber : ℕ) : List (ℕ × ℕ × ℕ) :=
  if (m.find? (fun e => e.1 == marker)).isSome then
    m.map (fun e =>
      if e.1 = marker then (e.1, min e.2.1 ayahNumber, max e.2.2 ayahNumber) else e)
  else m ++ [(marker, ayahNumber, ayahNumber)]

/-- The ruku/page `Map` built from the surah's ayah rows. -/
def boundaryRanges (marker : AyahRow → ℕ) (ayahs : List AyahRow) : List (ℕ × ℕ × ℕ) :=
  ayahs.foldl (fun m a => insertBoundary m (marker a) a.ayahNumber) []

/-- A row generated by the ruku/page grouping. -/
def mkBoundaryRow (surah : Surah) (t : GroupType) (id : ℕ) (range : ℕ × ℕ) : GroupRow :=
  { id := id
    surahNumber := surah.number
    startAyah := range.1
    endAyah := range.2
    groupType := t
    progress := 0
    state := .new
    ayahIds := []
    testAsGroup := true }

/-- The group-creation loop over the boundary map entries. -/
def buildBoundaryRows (surah : Surah) (t : GroupType) (idc : ℕ) :
    List (ℕ × ℕ × ℕ) → List GroupRow
  | [] => []
  | e :: rest => mkBoundaryRow surah t idc (e.2.1, e.2.2) :: buildBoundaryRows surah t (idc + 1) rest

/-- Shared body of `createRukuGroups`/`createPageGroups` after their
fallback checks: group the ayah rows by marker and sort by `startAyah`. -/
def boundaryGroups (surah : Surah) (t : GroupType) (marker : AyahRow → ℕ)
    (ayahRows : List AyahRow) (store : List GroupRow) (idc : ℕ) :
    List GroupRow × List GroupRow × ℕ :=
  let ranges := boundaryRanges marker ayahRows
  let groups := buildBoundaryRows surah t idc ranges
  let groups := List.insertionSort (fun a b => a.startAyah ≤ b.startAyah) groups
  (groups, store, idc + ranges.length)

/-- The outcome of `fetchAyahsForSurah` followed by re-reading the surah
row: `.error` models a thrown fetch (caught in the source), `.ok (r, p)`
the parsed `rukus`/`pages` the surah is updated with. -/
abbrev FetchOutcome := Except Err (List ℕ × List ℕ)

/-- Embeds `createRukuGroups(surah)`: fetches ruku markers when missing (fetch
failures are caught and leave the surah unchanged), falls back to
`createFixedGroups(surah, 5)` when markers are still missing or no ayah
rows exist, otherwise groups by ruku boundaries. -/
def createRukuGroups (surah : Surah) (fetch : FetchOutcome) (ayahRows : List AyahRow)
    (store : List GroupRow) (idc : ℕ) : List GroupRow × List GroupRow × ℕ :=
  let surah :=
    if surah.rukus = [] then
      match fetch with
      | .ok rp => { surah with rukus := rp.1 }
      | .error _ => surah
    else surah
  if surah.rukus = [] then createFixedGroups surah 5 store idc
  else if ayahRows = [] then createFixedGroups surah 5 store idc
  else boundaryGroups surah .ruku (fun a => a.ruku) ayahRows store idc

/-- Embeds `createPageGroups(surah)`: same shape as `createRukuGroups` with page
markers. -/
def createPageGroups (surah : Surah) (fetch : FetchOutcome) (ayahRows : List AyahRow)
    (store : List GroupRow) (idc : ℕ) : List GroupRow × List GroupRow × ℕ :=
  let surah :=
    if surah.pages = [] then
      match fetch with
      | .ok rp => { surah with pages := rp.2 }
      | .error _ => surah
    else surah
  if surah.pages = [] then createFixedGroups surah 5 store idc
  else if ayahRows = [] then createFixedGroups surah 5 store idc
  else boundaryGroups surah .page (fun a => a.page) ayahRows store idc

/-- The pre-step of `createGroupsForSurah`: for the boundary methods
with missing ruku/page data, fetch and re-read the surah row (a thrown
fetch is caught and leaves the surah unchanged). -/
def resolveSurahData (surah : Surah) (groupingMethod : GroupType) (fetch : FetchOutcome) :
    Surah :=
  if (groupingMethod = .ruku ∨ groupingMethod = .page)
      ∧ (surah.rukus = [] ∨ surah.pages = []) then
    match fetch with
    | .ok rp => { surah with rukus := rp.1, pages := rp.2 }
    | .error _ => surah
  else surah

/-- Embeds `createGroupsForSurah(surah, groupingMethod, groupingSize)`: fills in
missing ruku/page data for the boundary methods, returns matching stored
groups as-is (after discarding fixed groups whose first-row size differs
from the requested size), otherwise regenerates, marks `testAsGroup` and
saves.  Returns (returned groups, new table, next fresh id). -/
def createGroupsForSurah (surah : Surah) (groupingMethod : GroupType) (groupingSize : ℤ)
    (fetch : FetchOutcome) (ayahRows : List AyahRow) (store : List GroupRow) (idc : ℕ) :
    List GroupRow × List GroupRow × ℕ :=
  let surah := resolveSurahData surah groupingMethod fetch
  let existing := queryGroups surah.number groupingMethod store
  let checked :=
    if groupingMethod = .fixed then
      match existing with
      | [] => (existing, store)
      | firstGroup :: _ =>
        let firstGroupSize : ℤ := (firstGroup.endAyah : ℤ) - (firstGroup.startAyah : ℤ) + 1
        if firstGroupSize ≠ groupingSize then ([], deleteGroups surah.number .fixed store)
        else (existing, store)
    else (existing, store)
  let existing := checked.1
  let store := checked.2
  if existing ≠ [] then (existing, store, idc)
  else
    let store := deleteGroups surah.number groupingMethod store
    let created :=
      match groupingMethod with
      | .fixed => createFixedGroups surah groupingSize store idc
      | .ruku => createRukuGroups surah fetch ayahRows store idc
      | .page => createPageGroups surah fetch ayahRows store idc
      | .custom => createFixedGroups surah groupingSize store idc
    let groups := created.1.map (fun g => { g with testAsGroup := true })
    (groups, created.2.1 ++ groups, created.2.2)

/-! ## Claim C1 -/

/-- C1: rating a `new` card Hard leaves the returned state at `new` for
every timestamp and parameter set: the `result.state = 'learning'`
assignment of the Hard/new branch is dead, overwritten by the trailing
`result.state = card.state === 'relearning' ? 'review' : card.state`.
This refutes `state ∈ {learning, review}` for the Hard rating; the other
three ratings do land in {learning, review}. -/
theorem scheduleReview_new_hard_keeps_state_new (now : ℝ) (params : FSRSParameters) :
    (scheduleReview initializeCard .hard now params).state = CardState.new
      ∧ ¬((scheduleReview initializeCard .hard now params).state = CardState.learning
          ∨ (scheduleReview initializeCard .hard now params).state = CardState.review) := by
  constructor
  · simp [scheduleReview, initializeCard]
  · simp [scheduleReview, initializeCard]

/-! ## Claim C2 -/

/-- C2 (counterexample): `memoryRetention` has no guard on non-positive
stability.  At stability = -1 and elapsedDays = 1 the unguarded formula
evaluates to `exp (-log 0.9) = 10/9`, not to the claimed `R = 1`. -/
theorem memoryRetention_no_stability_guard :
    (-1 : ℝ) ≤ 0 ∧ memoryRetention (-1) 1 defaultW ≠ 1 := by
  refine ⟨by norm_num, ?_⟩
  unfold memoryRetention
  rw [if_neg (by norm_num), if_neg (by norm_num)]
  have h : Real.log 0.9 * 1 / (-1) = Real.log ((0.9 : ℝ)⁻¹) := by
    rw [Real.log_inv]; ring
  rw [h, Real.exp_log (by norm_num)]
  norm_num

/-- C2 (amended): the only short-circuit guard in the retrievability
computation is on the elapsed time: `R = 1` whenever `elapsedDays ≤ 0`,
for every stability (including non-positive ones). -/
theorem memoryRetention_elapsed_guard (s e : ℝ) (w : ℕ → ℝ) (he : e ≤ 0) :
    memoryRetention s e w = 1 := by
  unfold memoryRetention
  rw [if_pos he]

/-- Witness for `memoryRetention_elapsed_guard` at s = 0, e = 0. -/
theorem memoryRetention_elapsed_guard_witness :
    (0 : ℝ) ≤ 0 ∧ memoryRetention 0 0 defaultW = 1 :=
  ⟨le_refl 0, memoryRetention_elapsed_guard 0 0 defaultW (le_refl 0)⟩

/-! ## Claim C8 -/

/-- C8: for fixed stability s > 0, `nextInterval` is non-decreasing as
the target retention decreases towards 0: lower `requestRetention` never
shortens the computed interval. -/
theorem nextInterval_antitone_in_retention (s r1 r2 : ℝ)
    (hs : 0 < s) (hr2 : 0 < r2) (hlt : r2 < r1) (_hr1 : r1 < 1) :
    nextInterval s r1 ≤ nextInterval s r2 := by
  unfold nextInterval
  rw [if_neg (not_le.mpr hs), if_neg (not_le.mpr hs)]
  refine max_le_max le_rfl ?_
  unfold jsRound
  refine Int.floor_le_floor (add_le_add_right ?_ _)
  have hlog09 : Real.log 0.9 < 0 := Real.log_neg (by norm_num) (by norm_num)
  have hlogs : Real.log r2 ≤ Real.log r1 := Real.log_le_log hr2 hlt.le
  have h1 : s * Real.log r2 ≤ s * Real.log r1 := mul_le_mul_of_nonneg_left hlogs hs.le
  exact (div_le_div_right_of_neg hlog09).mpr h1

/-- Witness for `nextInterval_antitone_in_retention` at s = 2,
r1 = 0.9, r2 = 0.8. -/
theorem nextInterval_antitone_in_retention_witness :
    (0 : ℝ) < 2 ∧ (0 : ℝ) < 0.8 ∧ (0.8 : ℝ) < 0.9 ∧ (0.9 : ℝ) < 1 ∧
      nextInterval 2 0.9 ≤ nextInterval 2 0.8 :=
  ⟨by norm_num, by norm_num, by norm_num, by norm_num,
    nextInterval_antitone_in_retention 2 0.9 0.8 (by norm_num) (by norm_num)
      (by norm_num) (by norm_num)⟩

/-! ## Claim C9 -/

/-- C9: session retention is `passed / total * 100` with
`passed = hard + good + easy`, and the tally
`{again 1, hard 1, good 2, easy 1}` yields exactly 80. -/
theorem calculateRetention_passed_over_total (r : RatingsTally)
    (h : r.again + r.hard + r.good + r.easy ≠ 0) :
    calculateRetention r
        = ((r.hard + r.good + r.easy : ℚ) / ((r.again + r.hard + r.good + r.easy : ℕ) : ℚ))
            * 100
      ∧ calculateRetention ⟨1, 1, 2, 1⟩ = 80 := by
  constructor
  · unfold calculateRetention
    rw [if_neg h]
    push_cast
    ring
  · unfold calculateRetention
    norm_num

/-- Witness for `calculateRetention_passed_over_total` at the tally
`{again 1, hard 1, good 2, easy 1}`. -/
theorem calculateRetention_passed_over_total_witness :
    (1 + 1 + 2 + 1 : ℕ) ≠ 0 ∧ calculateRetention ⟨1, 1, 2, 1⟩ = 80 :=
  ⟨by decide, (calculateRetention_passed_over_total ⟨1, 1, 2, 1⟩ (by decide)).2⟩

/-! ## Claim C5

The `Again, Good, Good` trace of §8 from a new card at t = 0 with the
default parameters; the third rating happens one day (= `msPerDay` ms)
after the second. -/

/-- Card after rating the new card `Again` at t = 0. -/
noncomputable def c5Card1 : FSRSCard := scheduleReview initializeCard .again 0 DEFAULT_PARAMETERS

/-- Card after the subsequent `Good` at t = 0. -/
noncomputable def c5Card2 : FSRSCard := scheduleReview c5Card1 .good 0 DEFAULT_PARAMETERS

/-- Card after the second `Good`, one day later. -/
noncomputable def c5Card3 : FSRSCard := scheduleReview c5Card2 .good msPerDay DEFAULT_PARAMETERS

theorem c5Card1_eq :
    c5Card1 =
      { state := .learning, easeFactor := 2.5, stability := 0.376, difficulty := 1,
        lapses := 0, lastReview := some 0, dueDate := some 0, interval := 0 } := by
  unfold c5Card1 scheduleReview initializeCard DEFAULT_PARAMETERS defaultW
  simp
  norm_num

theorem c5Card2_eq :
    c5Card2 =
      { state := .review, easeFactor := 2.5, stability := 0.376, difficulty := 1,
        lapses := 0, lastReview := some 0, dueDate := some msPerDay, interval := 1 } := by
  unfold c5Card2
  rw [c5Card1_eq]
  unfold scheduleReview DEFAULT_PARAMETERS defaultW
  simp
  norm_num

/-- With the default target retention 0.9, `nextInterval` collapses to
`max 1 (round stability)`, which is 1 for any stability below 1.5. -/
theorem nextInterval_point_nine_eq_one (s : ℝ) (hpos : 0 < s) (hlt : s < 3 / 2) :
    nextInterval s 0.9 = 1 := by
  unfold nextInterval jsRound
  rw [if_neg (not_le.mpr hpos)]
  have hlog : Real.log 0.9 ≠ 0 := ne_of_lt (Real.log_neg (by norm_num) (by norm_num))
  rw [mul_div_assoc, div_self hlog, mul_one]
  have h1 : ⌊s + 1 / 2⌋ ≤ 1 := by
    have h2 : ⌊s + 1 / 2⌋ < 2 := Int.floor_lt.mpr (by push_cast; linarith)
    omega
  exact max_eq_left h1

theorem c5Card3_interval : c5Card3.interval = 1 := by
  have hm : (msPerDay : ℝ) / msPerDay = 1 := by
    unfold msPerDay
    norm_num
  have hR1 : memoryRetention 0.376 1 defaultW = Real.exp (Real.log 0.9 / 0.376) := by
    unfold memoryRetention
    rw [if_neg (by norm_num), if_neg (by norm_num), mul_one]
  have hpos : (0 : ℝ) < 0.376 * 1.01 * Real.exp (Real.log 0.9 / 0.376) ^ (-(2.4 : ℝ)) := by
    positivity
  have hlt : 0.376 * 1.01 * Real.exp (Real.log 0.9 / 0.376) ^ (-(2.4 : ℝ)) < 3 / 2 := by
    rw [Real.rpow_def_of_pos (Real.exp_pos _), Real.log_exp]
    have hlog : -Real.log 0.9 ≤ 1 / 9 := by
      have h := Real.log_le_sub_one_of_pos (show (0 : ℝ) < (0.9 : ℝ)⁻¹ by norm_num)
      rw [Real.log_inv] at h
      nlinarith
    have harg : Real.log 0.9 / 0.376 * (-(2.4 : ℝ)) ≤ 1 := by
      have h2 : Real.log 0.9 / 0.376 * (-(2.4 : ℝ)) = -Real.log 0.9 * (2.4 / 0.376) := by
        ring
      rw [h2]
      calc -Real.log 0.9 * (2.4 / 0.376)
          ≤ 1 / 9 * (2.4 / 0.376) :=
            mul_le_mul_of_nonneg_right hlog (by norm_num)
        _ ≤ 1 := by norm_num
    have hexp : Real.exp (Real.log 0.9 / 0.376 * (-(2.4 : ℝ))) ≤ Real.exp 1 :=
      Real.exp_le_exp.mpr harg
    have he1 : Real.exp 1 < 2.7182818286 := Real.exp_one_lt_d9
    nlinarith
  unfold c5Card3
  rw [c5Card2_eq]
  simp [scheduleReview, DEFAULT_PARAMETERS, defaultW, hm, hR1]
  exact nextInterval_point_nine_eq_one _ hpos hlt

/-- C5 (counterexample): after `Again, Good, Good` from a new card at
day 0 (third rating one day after the second) the recomputed interval is
1 day, not strictly greater than 1: the updated stability
`0.376 * 1.01 * R^2.4 ≈ 0.744` still rounds to 1. -/
theorem c5_third_interval_not_gt_one : ¬(1 < c5Card3.interval) := by
  rw [c5Card3_interval]
  decide

/-- C5 (amended): the `Again, Good, Good` trace gives: after Again,
state `learning` and immediately due (`dueDate = now`); after the first
Good, state `review` with interval 1 day; after the second Good one day
later, the interval recomputed from the updated stability is again
exactly 1 day. -/
theorem againGoodGood_trace :
    c5Card1.state = CardState.learning ∧ c5Card1.dueDate = some 0 ∧ isDue c5Card1 0
      ∧ c5Card2.state = CardState.review ∧ c5Card2.interval = 1
      ∧ c5Card3.interval = 1 := by
  refine ⟨?_, ?_, ?_, ?_, ?_, c5Card3_interval⟩
  · rw [c5Card1_eq]
  · rw [c5Card1_eq]
  · rw [c5Card1_eq]
    unfold isDue
    norm_num
  · rw [c5Card2_eq]
  · rw [c5Card2_eq]

/-! ## Claim C4 -/

/-- Store invariant support: a freshly created progress record has state
`new` and `nextReview = null`. -/
theorem createAyahProgress_new_null (id s a g : ℕ) (tw : Bool) (gp : ℕ) (now : ℝ) :
    (createAyahProgress id s a g tw gp now).state = CardState.new
      ∧ (createAyahProgress id s a g tw gp now).nextReview = none :=
  ⟨rfl, rfl⟩

/-- Store invariant support: every branch of `scheduleReview` writes a
due date, so a rated record never returns to `nextReview = null`. -/
theorem scheduleReview_dueDate_isSome (card : FSRSCard) (rating : Rating) (now : ℝ)
    (params : FSRSParameters) :
    (scheduleReview card rating now params).dueDate ≠ none := by
  cases rating <;> simp only [scheduleReview] <;> (repeat' split) <;> simp

/-- C4: a record with `nextReview = null` is selected by the
`nextReview IS NULL OR nextReview <= ?` due query for every `now`, and —
under the store invariant that null-`nextReview` records are in state
`new` (they are created that way, and every rating writes a non-null
`nextReview`, see the two lemmas above) — `isDue` also holds on the
corresponding card for every `now`. -/
theorem nullNextReview_always_due (p : AyahProgress) (now : ℝ)
    (hnull : p.nextReview = none)
    (hinv : p.nextReview = none → p.state = CardState.new) :
    dueQuerySelects p now ∧ isDue (progressToCard p) now := by
  refine ⟨Or.inl hnull, ?_⟩
  simp [isDue, progressToCard, hinv hnull]

/-- Witness for `nullNextReview_always_due`: a freshly created record,
checked at now = 5. -/
theorem nullNextReview_always_due_witness :
    (createAyahProgress 0 1 1 0 false 1 0).nextReview = none
      ∧ dueQuerySelects (createAyahProgress 0 1 1 0 false 1 0) 5
      ∧ isDue (progressToCard (createAyahProgress 0 1 1 0 false 1 0)) 5 :=
  ⟨rfl,
    (nullNextReview_always_due (createAyahProgress 0 1 1 0 false 1 0) 5 rfl fun _ => rfl).1,
    (nullNextReview_always_due (createAyahProgress 0 1 1 0 false 1 0) 5 rfl fun _ => rfl).2⟩

/-! ## Claim C10 -/

/-- C10: storage failures inside the due-summary and session-composition
are absorbed by their `catch` blocks: whenever the query pipeline throws,
`getTodayDueReviews` returns the all-zero summary and `getSessionAyahs`
the empty list — the same outputs a genuinely empty due set produces. -/
theorem scheduler_errors_silent :
    (∀ (s : Except Err Settings) (d : Except Err (List AyahProgress)) (e : Err),
        getTodayDueReviewsE s d = .error e →
          getTodayDueReviews s d = { due := 0, new := 0, learning := 0, review := 0 })
      ∧ (∀ st : Settings,
          getTodayDueReviews (.ok st) (.ok []) = { due := 0, new := 0, learning := 0, review := 0 })
      ∧ (∀ (s : Except Err Settings) (df gq : ℕ → Except Err (List AyahProgress)) (e : Err),
          getSessionAyahsE s df gq = .error e → getSessionAyahs s df gq = [])
      ∧ (∀ (st : Settings) (df gq : ℕ → Except Err (List AyahProgress)),
          df st.reviewLimit = .ok [] → getSessionAyahs (.ok st) df gq = []) := by
  refine ⟨?_, ?_, ?_, ?_⟩
  · intro s d e h
    simp [getTodayDueReviews, h]
  · intro st
    simp [getTodayDueReviews, getTodayDueReviewsE, bind, Except.bind, pure, Except.pure]
  · intro s df gq e h
    simp [getSessionAyahs, h]
  · intro st df gq h
    simp [getSessionAyahs, getSessionAyahsE, h, sessionLoop, bind, Except.bind,
      pure, Except.pure]

/-- Witness for `scheduler_errors_silent`: a thrown settings query and a
genuinely empty due set produce identical outputs. -/
theorem scheduler_errors_silent_witness :
    getTodayDueReviews (.error "db down") (.error "db down")
        = { due := 0, new := 0, learning := 0, review := 0 }
      ∧ getTodayDueReviews (.ok ⟨50⟩) (.ok []) = { due := 0, new := 0, learning := 0, review := 0 }
      ∧ getSessionAyahs (.error "db down") (fun _ => .error "db down")
          (fun _ => .error "db down") = []
      ∧ getSessionAyahs (.ok ⟨50⟩) (fun _ => .ok []) (fun _ => .ok []) = [] :=
  ⟨scheduler_errors_silent.1 (.error "db down") (.error "db down") "db down" rfl,
    scheduler_errors_silent.2.1 ⟨50⟩,
    scheduler_errors_silent.2.2.1 (.error "db down") (fun _ => .error "db down")
      (fun _ => .error "db down") "db down" rfl,
    scheduler_errors_silent.2.2.2 ⟨50⟩ (fun _ => .ok []) (fun _ => .ok []) rfl⟩

/-! ## Claim C7 -/

/-- Replacing a surah's ruku list by its own value is the identity. -/
theorem surah_set_rukus_self (s : Surah) (l : List ℕ) (h1 : s.rukus = l) :
    ({ s with rukus := l } : Surah) = s := by
  cases s
  simp_all

/-- Replacing a surah's page list by its own value is the identity. -/
theorem surah_set_pages_self (s : Surah) (l : List ℕ) (h1 : s.pages = l) :
    ({ s with pages := l } : Surah) = s := by
  cases s
  simp_all

/-- C7: when the structural markers are missing and the fetch attempt
either throws (the error is caught) or still yields no markers, both
`createRukuGroups` and `createPageGroups` return exactly
`createFixedGroups(surah, 5)`: boundary-fetch failure silently degrades
to fixed groups of 5 and never aborts group creation. -/
theorem boundary_fallback_fixed5 (surah : Surah) (fetch : FetchOutcome)
    (ayahRows : List AyahRow) (store : List GroupRow) (idc : ℕ)
    (hr : surah.rukus = []) (hp : surah.pages = [])
    (hfetch : ∀ rp, fetch = .ok rp → rp.1 = [] ∧ rp.2 = []) :
    createRukuGroups surah fetch ayahRows store idc = createFixedGroups surah 5 store idc
      ∧ createPageGroups surah fetch ayahRows store idc
          = createFixedGroups surah 5 store idc := by
  cases fetch with
  | error e =>
    constructor
    · simp [createRukuGroups, hr]
    · simp [createPageGroups, hp]
  | ok rp =>
    obtain ⟨h1, h2⟩ := hfetch rp rfl
    constructor
    · simp only [createRukuGroups, hr, h1, if_pos]
      simp [surah_set_rukus_self surah [] hr]
    · simp only [createPageGroups, hp, h2, if_pos]
      simp [surah_set_pages_self surah [] hp]

/-- Witness for `boundary_fallback_fixed5`: a 7-ayah surah without
markers and a throwing fetch. -/
theorem boundary_fallback_fixed5_witness :
    createRukuGroups ⟨1, 7, [], []⟩ (.error "fetch failed") [] [] 0
        = createFixedGroups ⟨1, 7, [], []⟩ 5 [] 0
      ∧ createPageGroups ⟨1, 7, [], []⟩ (.error "fetch failed") [] [] 0
        = createFixedGroups ⟨1, 7, [], []⟩ 5 [] 0 :=
  boundary_fallback_fixed5 ⟨1, 7, [], []⟩ (.error "fetch failed") [] [] 0 rfl rfl
    (fun _rp h => nomatch h)

/-! ## Claim C6 -/

/-- Every range the fixed-group loop visits starts at or after the loop
variable. -/
theorem fixedRanges_start_le (ac sz : ℕ) :
    ∀ st, ∀ p ∈ fixedRanges ac sz st, st ≤ p.1 := by
  have H : ∀ n st, ac + 1 - st ≤ n → ∀ p ∈ fixedRanges ac sz st, st ≤ p.1 := by
    intro n
    induction n with
    | zero =>
      intro st hst p hp
      rw [fixedRanges, dif_neg (by omega)] at hp
      cases hp
    | succ n ih =>
      intro st hst p hp
      rw [fixedRanges] at hp
      by_cases hc : st ≤ ac ∧ 0 < sz
      · rw [dif_pos hc] at hp
        rcases List.mem_cons.mp hp with hp | hp
        · subst hp
          exact le_refl st
        · have h2 := ih (st + sz) (by omega) p hp
          omega
      · rw [dif_neg hc] at hp
        cases hp
  intro st p hp
  exact H (ac + 1 - st) st le_rfl p hp

/-- The visited ranges are in ascending start order. -/
theorem fixedRanges_pairwise (ac sz : ℕ) :
    ∀ st, List.Pairwise (fun a b : ℕ × ℕ => a.1 ≤ b.1) (fixedRanges ac sz st) := by
  have H : ∀ n st, ac + 1 - st ≤ n →
      List.Pairwise (fun a b : ℕ × ℕ => a.1 ≤ b.1) (fixedRanges ac sz st) := by
    intro n
    induction n with
    | zero =>
      intro st hst
      rw [fixedRanges, dif_neg (by omega)]
      exact List.Pairwise.nil
    | succ n ih =>
      intro st hst
      rw [fixedRanges]
      by_cases hc : st ≤ ac ∧ 0 < sz
      · rw [dif_pos hc]
        refine List.pairwise_cons.mpr ⟨?_, ih (st + sz) (by omega)⟩
        intro p hp
        have h2 := fixedRanges_start_le ac sz (st + sz) p hp
        omega
      · rw [dif_neg hc]
        exact List.Pairwise.nil
  intro st
  exact H (ac + 1 - st) st le_rfl

/-- Shape of the generated fixed rows: each comes from one visited range. -/
theorem buildFixedRows_mem (surah : Surah) :
    ∀ (idc : ℕ) (l : List (ℕ × ℕ)) (g : GroupRow), g ∈ buildFixedRows surah idc l →
      ∃ j p, p ∈ l ∧ g = mkFixedRow surah j p := by
  intro idc l
  induction l generalizing idc with
  | nil =>
    intro g hg
    cases hg
  | cons a t ih =>
    intro g hg
    rcases List.mem_cons.mp hg with hg | hg
    · exact ⟨idc, a, List.mem_cons_self a t, hg⟩
    · rcases ih (idc + 1) g hg with ⟨j, p, hp, hgp⟩
      exact ⟨j, p, List.mem_cons_of_mem a hp, hgp⟩

/-- The generated fixed rows keep the ascending start order of their
ranges. -/
theorem buildFixedRows_sorted (surah : Surah) :
    ∀ (idc : ℕ) (l : List (ℕ × ℕ)),
      List.Pairwise (fun a b : ℕ × ℕ => a.1 ≤ b.1) l →
      List.Sorted (fun a b : GroupRow => a.startAyah ≤ b.startAyah)
        (buildFixedRows surah idc l) := by
  intro idc l
  induction l generalizing idc with
  | nil =>
    intro _
    exact List.Pairwise.nil
  | cons a t ih =>
    intro h
    rcases List.pairwise_cons.mp h with ⟨h1, h2⟩
    refine List.pairwise_cons.mpr ⟨?_, ih (idc + 1) h2⟩
    intro g hg
    rcases buildFixedRows_mem surah (idc + 1) t g hg with ⟨j, p, hp, hgp⟩
    subst hgp
    exact h1 p hp

/-- Deleting (surah, type) rows is the identity when none are stored. -/
theorem deleteGroups_eq_self (n : ℕ) (t : GroupType) (l : List GroupRow)
    (h : l.filter (fun r => r.surahNumber == n && r.groupType == t) = []) :
    deleteGroups n t l = l := by
  unfold deleteGroups
  rw [List.filter_eq_self]
  intro r hr
  have h2 := List.filter_eq_nil_iff.mp h r hr
  simp only [Bool.not_eq_true] at h2
  simp [h2]

/-- Marking `testAsGroup` is the identity on rows already marked. -/
theorem map_markTested (l : List GroupRow) (h : ∀ g ∈ l, g.testAsGroup = true) :
    l.map (fun g => { g with testAsGroup := true }) = l := by
  induction l with
  | nil => rfl
  | cons a t ih =>
    simp only [List.map_cons]
    have ha := h a (List.mem_cons_self a t)
    have ha2 : ({ a with testAsGroup := true } : GroupRow) = a := by
      cases a
      simp_all
    rw [ha2, ih (fun g hg => h g (List.mem_cons_of_mem a hg))]

/-- A fresh `fixed` request (no fixed rows stored for the surah, positive
requested size) generates, saves and returns the consecutive fixed rows. -/
theorem createGroupsForSurah_fixed_fresh (surah : Surah) (size : ℤ) (fetch : FetchOutcome)
    (ayahRows : List AyahRow) (store0 : List GroupRow) (idc : ℕ)
    (h1 : 1 ≤ size)
    (h0 : store0.filter
        (fun r => r.surahNumber == surah.number && r.groupType == GroupType.fixed) = []) :
    createGroupsForSurah surah .fixed size fetch ayahRows store0 idc
      = (buildFixedRows surah idc (fixedRanges surah.ayahCount size.toNat 1),
          store0 ++ buildFixedRows surah idc (fixedRanges surah.ayahCount size.toNat 1),
          idc + (fixedRanges surah.ayahCount size.toNat 1).length) := by
  have hdel : deleteGroups surah.number .fixed store0 = store0 := deleteGroups_eq_self _ _ _ h0
  have hsz : (max 1 (if size = 0 then 5 else size)).toNat = size.toNat := by
    rw [if_neg (by omega), max_eq_right h1]
  have hmark : ∀ g ∈ buildFixedRows surah idc (fixedRanges surah.ayahCount size.toNat 1),
      g.testAsGroup = true := by
    intro g hg
    rcases buildFixedRows_mem surah idc _ g hg with ⟨j, p, _, rfl⟩
    rfl
  have hres : resolveSurahData surah .fixed fetch = surah := by
    simp [resolveSurahData]
  unfold createGroupsForSurah createFixedGroups
  rw [hres]
  simp only [queryGroups]
  rw [h0]
  simp only [hdel, hsz, List.insertionSort]
  simp [map_markTested _ hmark, hdel]

/-- A `fixed` request that finds stored groups whose first row spans the
requested size returns them as-is and changes nothing. -/
theorem createGroupsForSurah_fixed_existing (surah : Surah) (size : ℤ) (fetch : FetchOutcome)
    (ayahRows : List AyahRow) (store : List GroupRow) (idc : ℕ)
    (hd : GroupRow) (tl : List GroupRow)
    (hq : queryGroups surah.number .fixed store = hd :: tl)
    (hfirst : (hd.endAyah : ℤ) - (hd.startAyah : ℤ) + 1 = size) :
    createGroupsForSurah surah .fixed size fetch ayahRows store idc = (hd :: tl, store, idc) := by
  have hres : resolveSurahData surah .fixed fetch = surah := by
    simp [resolveSurahData]
  unfold createGroupsForSurah
  rw [hres]
  simp only [hq, hfirst]
  simp

/-- C6 (amended): `createGroupsForSurah(surah, 'fixed', size)` is
idempotent whenever the clamped size fits the surah
(`1 ≤ size ≤ ayahCount`, so the first stored group is untruncated):
starting from a store without fixed groups for the surah, the second call
returns the stored group set as-is — same rows, same store, same id
counter, no duplicates. -/
theorem createGroupsForSurah_fixed_idempotent (surah : Surah) (size : ℤ)
    (fetch : FetchOutcome) (ayahRows : List AyahRow) (store0 : List GroupRow) (idc : ℕ)
    (h1 : 1 ≤ size) (h2 : size ≤ (surah.ayahCount : ℤ))
    (h0 : store0.filter
        (fun r => r.surahNumber == surah.number && r.groupType == GroupType.fixed) = []) :
    createGroupsForSurah surah .fixed size fetch ayahRows
        (createGroupsForSurah surah .fixed size fetch ayahRows store0 idc).2.1
        (createGroupsForSurah surah .fixed size fetch ayahRows store0 idc).2.2
      = createGroupsForSurah surah .fixed size fetch ayahRows store0 idc := by
  rw [createGroupsForSurah_fixed_fresh surah size fetch ayahRows store0 idc h1 h0]
  dsimp only
  set szN := size.toNat with hszN
  have hsz0 : 0 < szN := by omega
  have hacN : szN ≤ surah.ayahCount := by
    rw [hszN]
    exact Int.toNat_le.mpr h2
  have hac1 : 1 ≤ surah.ayahCount := le_trans hsz0 hacN
  have hr : fixedRanges surah.ayahCount szN 1
      = (1, szN) :: fixedRanges surah.ayahCount szN (1 + szN) := by
    rw [fixedRanges, dif_pos ⟨hac1, hsz0⟩]
    rw [show 1 + szN - 1 = szN by omega, min_eq_left hacN]
  have hg : buildFixedRows surah idc (fixedRanges surah.ayahCount szN 1)
      = mkFixedRow surah idc (1, szN)
          :: buildFixedRows surah (idc + 1) (fixedRanges surah.ayahCount szN (1 + szN)) := by
    rw [hr]
    rfl
  have hfilterg : (buildFixedRows surah idc (fixedRanges surah.ayahCount szN 1)).filter
      (fun r => r.surahNumber == surah.number && r.groupType == GroupType.fixed)
      = buildFixedRows surah idc (fixedRanges surah.ayahCount szN 1) := by
    rw [List.filter_eq_self]
    intro r hrr
    rcases buildFixedRows_mem surah idc _ r hrr with ⟨j, p, _, rfl⟩
    simp [mkFixedRow]
  have hsorted : List.Sorted (fun a b : GroupRow => a.startAyah ≤ b.startAyah)
      (buildFixedRows surah idc (fixedRanges surah.ayahCount szN 1)) :=
    buildFixedRows_sorted surah idc _ (fixedRanges_pairwise surah.ayahCount szN 1)
  have hquery : queryGroups surah.number .fixed
      (store0 ++ buildFixedRows surah idc (fixedRanges surah.ayahCount szN 1))
      = buildFixedRows surah idc (fixedRanges surah.ayahCount szN 1) := by
    unfold queryGroups
    rw [List.filter_append, h0, hfilterg, List.nil_append]
    exact hsorted.insertionSort_eq
  have hfirst : ((mkFixedRow surah idc (1, szN)).endAyah : ℤ)
      - ((mkFixedRow surah idc (1, szN)).startAyah : ℤ) + 1 = size := by
    simp only [mkFixedRow]
    omega
  rw [hg] at hquery
  rw [hg]
  rw [createGroupsForSurah_fixed_existing surah size fetch ayahRows
    (store0 ++ mkFixedRow surah idc (1, szN)
      :: buildFixedRows surah (idc + 1) (fixedRanges surah.ayahCount szN (1 + szN)))
    (idc + (fixedRanges surah.ayahCount szN 1).length)
    (mkFixedRow surah idc (1, szN))
    (buildFixedRows surah (idc + 1) (fixedRanges surah.ayahCount szN (1 + szN)))
    hquery hfirst]

/-- Witness for `createGroupsForSurah_fixed_idempotent`: a 7-ayah surah
with fixed size 5 and an empty initial store. -/
theorem createGroupsForSurah_fixed_idempotent_witness :
    (1 : ℤ) ≤ 5 ∧ (5 : ℤ) ≤ ((7 : ℕ) : ℤ)
      ∧ createGroupsForSurah ⟨108, 7, [], []⟩ .fixed 5 (.error "no fetch") []
          (createGroupsForSurah ⟨108, 7, [], []⟩ .fixed 5 (.error "no fetch") [] [] 0).2.1
          (createGroupsForSurah ⟨108, 7, [], []⟩ .fixed 5 (.error "no fetch") [] [] 0).2.2
        = createGroupsForSurah ⟨108, 7, [], []⟩ .fixed 5 (.error "no fetch") [] [] 0 :=
  ⟨by norm_num, by norm_num,
    createGroupsForSurah_fixed_idempotent ⟨108, 7, [], []⟩ 5 (.error "no fetch") [] [] 0
      (by norm_num) (by norm_num) rfl⟩

/-- C6 (counterexample): for a surah shorter than the requested size
(3 ayahs, fixed size 5), the stored first group is truncated to 1–3, so
the size check mis-fires on the second identical request and the groups
are discarded and regenerated with fresh ids: the two calls do not
return identical group sets. -/
theorem fixed_idempotence_fails_short_surah :
    (createGroupsForSurah ⟨108, 3, [], []⟩ .fixed 5 (.error "no fetch") []
        (createGroupsForSurah ⟨108, 3, [], []⟩ .fixed 5 (.error "no fetch") [] [] 0).2.1
        (createGroupsForSurah ⟨108, 3, [], []⟩ .fixed 5 (.error "no fetch") [] [] 0).2.2).1
      ≠ (createGroupsForSurah ⟨108, 3, [], []⟩ .fixed 5 (.error "no fetch") [] [] 0).1 := by
  simp [createGroupsForSurah, resolveSurahData, createFixedGroups, queryGroups, deleteGroups,
    buildFixedRows, mkFixedRow, fixedRanges]

/-! ## Claim C3 -/

/-- Each `updateAyahProgress` call stamps `lastReviewed` with its own clock sample. -/
theorem reviewedProgress_lastReviewed (p : AyahProgress) (rating : Rating)
    (elapsedTime : Option ℝ) (now : ℝ) (params : FSRSParameters) :
    (reviewedProgress p rating elapsedTime now params).lastReviewed = some now := rfl

/-- An `updateAyahProgress` call keeps the record id. -/
theorem reviewedProgress_id (p : AyahProgress) (rating : Rating)
    (elapsedTime : Option ℝ) (now : ℝ) (params : FSRSParameters) :
    (reviewedProgress p rating elapsedTime now params).id = p.id := rfl

/-- The rescheduled interval of a record depends only on its card view. -/
theorem reviewedProgress_interval (p : AyahProgress) (rating : Rating)
    (elapsedTime : Option ℝ) (now : ℝ) (params : FSRSParameters) :
    (reviewedProgress p rating elapsedTime now params).interval
      = (scheduleReview (progressToCard p) rating now params).interval := rfl

/-- The new due date of a record depends only on its card view. -/
theorem reviewedProgress_nextReview (p : AyahProgress) (rating : Rating)
    (elapsedTime : Option ℝ) (now : ℝ) (params : FSRSParameters) :
    (reviewedProgress p rating elapsedTime now params).nextReview
      = (scheduleReview (progressToCard p) rating now params).dueDate := rfl

/-- The full data flow of one `rateAyah` call on a 3-member
`testWithGroup` unit: the current ayah and then each sibling is
rescheduled with the same rating and elapsed time, each update stamping
its own clock sample `clock k`; the tally and `totalReviewed` are bumped
once. -/
theorem rateAyah_three_run
    (a1 a2 a3 : AyahProgress) (rating : Rating) (elapsed : ℝ) (clock : ℕ → ℝ)
    (rt : RatingsTally) (tr : ℕ) (params : FSRSParameters)
    (htw1 : a1.testWithGroup = true) (htw2 : a2.testWithGroup = true)
    (htw3 : a3.testWithGroup = true)
    (hg2 : a2.groupId = a1.groupId) (hg3 : a3.groupId = a1.groupId)
    (h12 : a2.id ≠ a1.id) (h13 : a3.id ≠ a1.id) (h23 : a3.id ≠ a2.id) :
    rateAyah [a1, a2, a3] [a1, a2, a3] a1 rating elapsed clock rt tr params
      = some ([reviewedProgress a1 rating (some elapsed) (clock 0) params,
                reviewedProgress a2 rating (some elapsed) (clock 1) params,
                reviewedProgress a3 rating (some elapsed) (clock 2) params],
              bumpRating rt rating, tr + 1) := by
  have hb12 : (a1.id == a2.id) = false := beq_eq_false_iff_ne.mpr (Ne.symm h12)
  have hb13 : (a1.id == a3.id) = false := beq_eq_false_iff_ne.mpr (Ne.symm h13)
  have hb23 : (a2.id == a3.id) = false := beq_eq_false_iff_ne.mpr (Ne.symm h23)
  have step1 : updateAyahProgress [a1, a2, a3] a1.id rating (some elapsed) (clock 0) params
      = some (reviewedProgress a1 rating (some elapsed) (clock 0) params,
          [reviewedProgress a1 rating (some elapsed) (clock 0) params, a2, a3]) := by
    unfold updateAyahProgress
    simp [List.find?, h12, h13]
  have step2 : updateAyahProgress
      [reviewedProgress a1 rating (some elapsed) (clock 0) params, a2, a3] a2.id rating
      (some elapsed) (clock 1) params
      = some (reviewedProgress a2 rating (some elapsed) (clock 1) params,
          [reviewedProgress a1 rating (some elapsed) (clock 0) params,
            reviewedProgress a2 rating (some elapsed) (clock 1) params, a3]) := by
    unfold updateAyahProgress
    simp [List.find?, reviewedProgress_id, hb12, Ne.symm h12, h23]
  have step3 : updateAyahProgress
      [reviewedProgress a1 rating (some elapsed) (clock 0) params,
        reviewedProgress a2 rating (some elapsed) (clock 1) params, a3] a3.id rating
      (some elapsed) (clock 2) params
      = some (reviewedProgress a3 rating (some elapsed) (clock 2) params,
          [reviewedProgress a1 rating (some elapsed) (clock 0) params,
            reviewedProgress a2 rating (some elapsed) (clock 1) params,
            reviewedProgress a3 rating (some elapsed) (clock 2) params]) := by
    unfold updateAyahProgress
    simp [List.find?, reviewedProgress_id, hb13, hb23, Ne.symm h13, Ne.symm h23]
  have hbne2 : (a2.id != a1.id) = true := by
    simp [bne_iff_ne, h12]
  have hbne3 : (a3.id != a1.id) = true := by
    simp [bne_iff_ne, h13]
  have hfilter : List.filter
      (fun a => a.groupId == a1.groupId && a.testWithGroup && a.id != a1.id)
      [a1, a2, a3] = [a2, a3] := by
    simp [List.filter, htw1, htw2, htw3, hg2, hg3, hbne2, hbne3]
  unfold rateAyah
  rw [step1]
  simp only [bind, Option.bind, htw1, if_true, hfilter]
  unfold updateGroupLoop
  rw [step2]
  simp only [bind, Option.bind]
  unfold updateGroupLoop
  rw [step3]
  simp [bind, Option.bind, updateGroupLoop, pure]

/-- C3 (amended): rating the current ayah of a 3-member
`testWithGroup` unit updates exactly the three member records — each with
the same rating and elapsed time — and increments the rating tally and
`totalReviewed` by exactly one; and provided the wall clock does not
advance between the three `updateAyahProgress` calls (each samples its
own `new Date()`) and the members carry identical scheduling state, the
three updated records share identical `lastReviewed`, `interval` and
`nextReview`. -/
theorem rateAyah_group_atomic
    (a1 a2 a3 : AyahProgress) (rating : Rating) (elapsed t : ℝ) (clock : ℕ → ℝ)
    (rt : RatingsTally) (tr : ℕ) (params : FSRSParameters)
    (hclock : ∀ n, clock n = t)
    (htw1 : a1.testWithGroup = true) (htw2 : a2.testWithGroup = true)
    (htw3 : a3.testWithGroup = true)
    (hg2 : a2.groupId = a1.groupId) (hg3 : a3.groupId = a1.groupId)
    (h12 : a2.id ≠ a1.id) (h13 : a3.id ≠ a1.id) (h23 : a3.id ≠ a2.id)
    (hc2 : progressToCard a2 = progressToCard a1)
    (hc3 : progressToCard a3 = progressToCard a1) :
    rateAyah [a1, a2, a3] [a1, a2, a3] a1 rating elapsed clock rt tr params
        = some ([reviewedProgress a1 rating (some elapsed) t params,
                  reviewedProgress a2 rating (some elapsed) t params,
                  reviewedProgress a3 rating (some elapsed) t params],
                bumpRating rt rating, tr + 1)
      ∧ (reviewedProgress a2 rating (some elapsed) t params).lastReviewed
          = (reviewedProgress a1 rating (some elapsed) t params).lastReviewed
      ∧ (reviewedProgress a3 rating (some elapsed) t params).lastReviewed
          = (reviewedProgress a1 rating (some elapsed) t params).lastReviewed
      ∧ (reviewedProgress a2 rating (some elapsed) t params).interval
          = (reviewedProgress a1 rating (some elapsed) t params).interval
      ∧ (reviewedProgress a3 rating (some elapsed) t params).interval
          = (reviewedProgress a1 rating (some elapsed) t params).interval
      ∧ (reviewedProgress a2 rating (some elapsed) t params).nextReview
          = (reviewedProgress a1 rating (some elapsed) t params).nextReview
      ∧ (reviewedProgress a3 rating (some elapsed) t params).nextReview
          = (reviewedProgress a1 rating (some elapsed) t params).nextReview := by
  refine ⟨?_, rfl, rfl, ?_, ?_, ?_, ?_⟩
  · rw [rateAyah_three_run a1 a2 a3 rating elapsed clock rt tr params
      htw1 htw2 htw3 hg2 hg3 h12 h13 h23, hclock 0, hclock 1, hclock 2]
  · rw [reviewedProgress_interval, reviewedProgress_interval, hc2]
  · rw [reviewedProgress_interval, reviewedProgress_interval, hc3]
  · rw [reviewedProgress_nextReview, reviewedProgress_nextReview, hc2]
  · rw [reviewedProgress_nextReview, reviewedProgress_nextReview, hc3]

/-- Three freshly created member records of one group (`groupId = 7`),
as the learn flow creates them. -/
noncomputable def c3a (i : ℕ) : AyahProgress := createAyahProgress i 1 i 7 true i 0

/-- Witness for `rateAyah_group_atomic`: three new members of group 7,
rated Good with a constant clock at t = 100. -/
theorem rateAyah_group_atomic_witness :
    rateAyah [c3a 1, c3a 2, c3a 3] [c3a 1, c3a 2, c3a 3] (c3a 1) .good 1000 (fun _ => 100)
        ⟨0, 0, 0, 0⟩ 0 DEFAULT_PARAMETERS
      = some ([reviewedProgress (c3a 1) .good (some 1000) 100 DEFAULT_PARAMETERS,
                reviewedProgress (c3a 2) .good (some 1000) 100 DEFAULT_PARAMETERS,
                reviewedProgress (c3a 3) .good (some 1000) 100 DEFAULT_PARAMETERS],
              bumpRating ⟨0, 0, 0, 0⟩ .good, 0 + 1) :=
  (rateAyah_group_atomic (c3a 1) (c3a 2) (c3a 3) .good 1000 100 (fun _ => 100)
    ⟨0, 0, 0, 0⟩ 0 DEFAULT_PARAMETERS (fun _ => rfl) rfl rfl rfl rfl rfl
    (by decide) (by decide) (by decide) rfl rfl).1

/-- C3 (counterexample): the three member updates of one rating event
each sample their own `new Date()` inside `updateAyahProgress`; under a
clock that advances by 1 ms per call the three updated records carry
`lastReviewed` = 0, 1 and 2 ms — not identical values, refuting the
claim as stated. -/
theorem rateAyah_clock_skew_lastReviewed_differs :
    ((rateAyah [c3a 1, c3a 2, c3a 3] [c3a 1, c3a 2, c3a 3] (c3a 1) .good 1000
          (fun n => (n : ℝ)) ⟨0, 0, 0, 0⟩ 0 DEFAULT_PARAMETERS).map
        (fun r => r.1.map (fun p => p.lastReviewed)))
      = some [some 0, some 1, some 2]
      ∧ (some (0 : ℝ) : Option ℝ) ≠ some (1 : ℝ) := by
  constructor
  · rw [rateAyah_three_run (c3a 1) (c3a 2) (c3a 3) .good 1000 (fun n => (n : ℝ))
      ⟨0, 0, 0, 0⟩ 0 DEFAULT_PARAMETERS rfl rfl rfl rfl rfl
      (by decide) (by decide) (by decide)]
    simp [reviewedProgress_lastReviewed]
  · simp

end Murajaah
